import Mathlib

/-!
Verification of the `DelayedAsyncTask` one-time task scheduler
(src/src/delayed-async-task.ts).

The class wraps one asynchronous callable and one delay. Its externally
observable state consists of the fields of the TS class:

  * `_status : DelayedAsyncTaskStatus` — a five-valued string union;
  * `_timeout` — the armed `setTimeout` handle (present or `undefined`);
  * `_uncaughtRejection` — the captured error value. JavaScript cannot
    distinguish "field never assigned" from "field assigned `undefined`",
    so we model the field as `Option E` where `none` plays `undefined`;
    a rejection value itself is an `Option E` as well, because a promise
    may reject with the value `undefined`;
  * `_currentlyExecutingTaskPromise` — the stored promise returned by
    `_handleTaskExecution` (present or `undefined`).

In addition the model keeps ghost bookkeeping that a JS heap would carry
implicitly: whether the handler promise has been created, whether it has
settled (the handler's `try/catch/finally` ran to completion), and how many
times the callable has been invoked.

Time is abstracted into events: the timer firing, the task's promise
settling, and the public `tryAbort` call. The timer callback is:

    this._timeout = undefined;
    this._status = "EXECUTING";
    this._currentlyExecutingTaskPromise = this._handleTaskExecution();

`_handleTaskExecution` is an `async` function, so its body runs
synchronously up to `await this._task()`. Two cases arise:

  * the callable returns a promise (every `async` callable does): the
    handler suspends at the `await`, returns a pending promise, and that
    promise is stored in the slot while the status is `EXECUTING`; the
    `catch`/`finally` run later, when the task's promise settles;
  * the callable throws synchronously (a non-`async` function of type
    `() => never` is assignable to `() => Promise<void>`): the `catch` and
    `finally` run synchronously inside the callback, and only afterwards
    does the assignment store the (already fulfilled) handler promise into
    `_currentlyExecutingTaskPromise` — overwriting the `undefined` the
    `finally` block just wrote.

Both cases are events of the model (`timerFireAsync`, `timerFireSyncThrow`).
-/

/-- The five-valued status union from the source. -/
inductive DelayedAsyncTaskStatus : Type
  | PENDING
  | EXECUTING
  | COMPLETED_SUCCESSFULLY
  | ABORTED_BEFORE_EXECUTION
  | FAILED_DUE_TO_UNCAUGHT_REJECTION
  deriving DecidableEq, Repr

open DelayedAsyncTaskStatus

/-- The observable fields of a `DelayedAsyncTask<E>` instance, plus ghost
bookkeeping (`handlerCreated`, `handlerSettled`, `invocations`) that the
JavaScript runtime carries implicitly.  `E` is the
`UncaughtRejectionErrorType` type parameter; an error value is an
`Option E`, with `none` standing for the JS value `undefined`. -/
structure DelayedAsyncTask (E : Type) : Type where
  _status : DelayedAsyncTaskStatus
  _timeout : Bool
  _uncaughtRejection : Option E
  _currentlyExecutingTaskPromise : Bool
  handlerCreated : Bool
  handlerSettled : Bool
  invocations : Nat
  deriving DecidableEq, Repr

namespace DelayedAsyncTask

variable {E : Type}

/-- The state right after `constructor(task, delayTillExecutionMs)`:
status `PENDING`, the timer armed, nothing captured, no promise stored,
the callable not yet invoked. -/
def construct (E : Type) : DelayedAsyncTask E where
  _status := PENDING
  _timeout := true
  _uncaughtRejection := none
  _currentlyExecutingTaskPromise := false
  handlerCreated := false
  handlerSettled := false
  invocations := 0

/-- Getter `isPending`. -/
def isPending (s : DelayedAsyncTask E) : Bool :=
  s._status = PENDING

/-- Getter `isExecuting`. -/
def isExecuting (s : DelayedAsyncTask E) : Bool :=
  s._status = EXECUTING

/-- Getter `isAborted`. -/
def isAborted (s : DelayedAsyncTask E) : Bool :=
  s._status = ABORTED_BEFORE_EXECUTION

/-- Getter `isCompleted`. -/
def isCompleted (s : DelayedAsyncTask E) : Bool :=
  s._status = COMPLETED_SUCCESSFULLY

/-- Getter `isUncaughtRejectionOccurred`. -/
def isUncaughtRejectionOccurred (s : DelayedAsyncTask E) : Bool :=
  s._status = FAILED_DUE_TO_UNCAUGHT_REJECTION

/-- Getter `uncaughtRejection`: returns the `_uncaughtRejection` field,
which is `undefined` (`none`) until the catch block assigns it. -/
def uncaughtRejection (s : DelayedAsyncTask E) : Option E :=
  s._uncaughtRejection

/-- `tryAbort()`: on `PENDING`, clear the timeout, move to
`ABORTED_BEFORE_EXECUTION` and return `true`; otherwise return `false`
and leave the state untouched. -/
def tryAbort (s : DelayedAsyncTask E) : Bool × DelayedAsyncTask E :=
  if s._status = PENDING then
    (true, { s with _timeout := false, _status := ABORTED_BEFORE_EXECUTION })
  else
    (false, s)

/-- The body of `_handleTaskExecution` from the point where
`await this._task()` has delivered the task's settlement `outcome`
(`Except.ok ()` for fulfilment, `Except.error v` for a rejection with
value `v`, where `v = none` is a rejection with `undefined`):
the `try` branch sets `COMPLETED_SUCCESSFULLY`, the `catch` branch sets
`FAILED_DUE_TO_UNCAUGHT_REJECTION` and stores the error verbatim, and the
`finally` clears `_currentlyExecutingTaskPromise`.  The second component
is the settlement of the handler's own promise: the handler never
rethrows, so it always fulfils with `()` — it never rejects. -/
def handleTaskExecution (s : DelayedAsyncTask E) (outcome : Except (Option E) Unit) :
    DelayedAsyncTask E × Except (Option E) Unit :=
  match outcome with
  | Except.ok _ =>
      ({ s with _status := COMPLETED_SUCCESSFULLY,
                _currentlyExecutingTaskPromise := false,
                handlerSettled := true }, Except.ok ())
  | Except.error v =>
      ({ s with _status := FAILED_DUE_TO_UNCAUGHT_REJECTION,
                _uncaughtRejection := v,
                _currentlyExecutingTaskPromise := false,
                handlerSettled := true }, Except.ok ())

/-- The value returned by `awaitCompletionIfCurrentlyExecuting()`:
either a fresh `Promise.resolve()` (when the slot is `undefined`) or the
stored handler promise — the same shared promise for every caller. -/
inductive AwaitResult : Type
  | freshResolved
  | storedHandler
  deriving DecidableEq, Repr

/-- `awaitCompletionIfCurrentlyExecuting()`:
`return this._currentlyExecutingTaskPromise ?? Promise.resolve();`. -/
def awaitCompletionIfCurrentlyExecuting (s : DelayedAsyncTask E) : AwaitResult :=
  if s._currentlyExecutingTaskPromise then AwaitResult.storedHandler
  else AwaitResult.freshResolved

/-- Whether the awaitable returned by `awaitCompletionIfCurrentlyExecuting`
is already settled at the instant of the call, i.e. awaiting it resolves at
the very next microtask checkpoint without waiting for any further event:
a fresh `Promise.resolve()` is settled, and the stored handler promise is
settled exactly when the handler has run to completion. -/
def resolvesImmediately (s : DelayedAsyncTask E) : Bool :=
  match awaitCompletionIfCurrentlyExecuting s with
  | AwaitResult.freshResolved => true
  | AwaitResult.storedHandler => s.handlerSettled

/-- The events that mutate a handle after construction. -/
inductive TaskEvent (E : Type) : Type
  | timerFireAsync
  | timerFireSyncThrow (v : Option E)
  | taskSettle (outcome : Except (Option E) Unit)
  | tryAbortCall
  deriving Repr

/-- Whether an event is the settlement of the task's promise. -/
def TaskEvent.isSettle : TaskEvent E → Bool
  | TaskEvent.taskSettle _ => true
  | _ => false

/-- Whether an event is a firing of the timer. -/
def TaskEvent.isFire : TaskEvent E → Bool
  | TaskEvent.timerFireAsync => true
  | TaskEvent.timerFireSyncThrow _ => true
  | _ => false

/-- Small-step semantics. `none` means the event cannot occur in the given
state: a cleared timer never fires (`clearTimeout` contract), and the
task's promise only delivers a settlement to the handler while the handler
is suspended at its `await`. `tryAbortCall` may always occur. -/
def applyEvent (e : TaskEvent E) (s : DelayedAsyncTask E) :
    Option (DelayedAsyncTask E) :=
  match e with
  | TaskEvent.timerFireAsync =>
      if s._timeout then
        some { s with _timeout := false,
                      _status := EXECUTING,
                      _currentlyExecutingTaskPromise := true,
                      handlerCreated := true,
                      handlerSettled := false,
                      invocations := s.invocations + 1 }
      else none
  | TaskEvent.timerFireSyncThrow v =>
      if s._timeout then
        let s1 : DelayedAsyncTask E :=
          { s with _timeout := false,
                   _status := EXECUTING,
                   handlerCreated := true,
                   handlerSettled := false,
                   invocations := s.invocations + 1 }
        let s2 := (handleTaskExecution s1 (Except.error v)).1
        some { s2 with _currentlyExecutingTaskPromise := true }
      else none
  | TaskEvent.taskSettle outcome =>
      if s.handlerCreated && !s.handlerSettled then
        some (handleTaskExecution s outcome).1
      else none
  | TaskEvent.tryAbortCall =>
      some (tryAbort s).2

/-- One step of the transition system. -/
def StepRel (s s' : DelayedAsyncTask E) : Prop :=
  ∃ e : TaskEvent E, applyEvent e s = some s'

/-- Zero or more steps. -/
def Steps : DelayedAsyncTask E → DelayedAsyncTask E → Prop :=
  Relation.ReflTransGen StepRel

/-- The states a handle can be in, starting from construction. -/
inductive Reachable : DelayedAsyncTask E → Prop
  | init : Reachable (construct E)
  | step (e : TaskEvent E) (s s' : DelayedAsyncTask E)
      (hr : Reachable s) (he : applyEvent e s = some s') : Reachable s'

/-- Terminal statuses: no transition leaves them. -/
def isTerminal : DelayedAsyncTaskStatus → Bool
  | COMPLETED_SUCCESSFULLY => true
  | ABORTED_BEFORE_EXECUTION => true
  | FAILED_DUE_TO_UNCAUGHT_REJECTION => true
  | _ => false

/-- Progress rank of a status along the state machine. -/
def statusRank : DelayedAsyncTaskStatus → Nat
  | PENDING => 0
  | EXECUTING => 1
  | _ => 2

/-- The inductive invariant tying the fields together in every reachable
state.  Note that `FAILED_DUE_TO_UNCAUGHT_REJECTION` constrains neither
`_uncaughtRejection` (the error value may be `undefined`) nor
`_currentlyExecutingTaskPromise` (a synchronously throwing callable leaves
the settled handler promise in the slot). -/
def Inv (s : DelayedAsyncTask E) : Prop :=
  match s._status with
  | PENDING =>
      s._timeout = true ∧ s._uncaughtRejection = none ∧
      s._currentlyExecutingTaskPromise = false ∧ s.handlerCreated = false ∧
      s.handlerSettled = false ∧ s.invocations = 0
  | EXECUTING =>
      s._timeout = false ∧ s._uncaughtRejection = none ∧
      s._currentlyExecutingTaskPromise = true ∧ s.handlerCreated = true ∧
      s.handlerSettled = false ∧ s.invocations = 1
  | ABORTED_BEFORE_EXECUTION =>
      s._timeout = false ∧ s._uncaughtRejection = none ∧
      s._currentlyExecutingTaskPromise = false ∧ s.handlerCreated = false ∧
      s.handlerSettled = false ∧ s.invocations = 0
  | COMPLETED_SUCCESSFULLY =>
      s._timeout = false ∧ s._uncaughtRejection = none ∧
      s._currentlyExecutingTaskPromise = false ∧ s.handlerCreated = true ∧
      s.handlerSettled = true ∧ s.invocations = 1
  | FAILED_DUE_TO_UNCAUGHT_REJECTION =>
      s._timeout = false ∧ (True : Prop) ∧
      (True : Prop) ∧ s.handlerCreated = true ∧
      s.handlerSettled = true ∧ s.invocations = 1

theorem inv_construct : Inv (construct E) := by
  simp [Inv, construct]

theorem inv_step {s s' : DelayedAsyncTask E} {e : TaskEvent E}
    (hinv : Inv s) (he : applyEvent e s = some s') : Inv s' := by
  obtain ⟨st, tm, ur, slot, hc, hs, n⟩ := s
  cases st <;>
    obtain ⟨h1, h2, h3, h4, h5, h6⟩ := hinv <;>
    subst_vars <;>
    rcases e with _ | v | outcome | _ <;>
    (try rcases outcome with ev | u) <;>
    simp only [applyEvent, handleTaskExecution, tryAbort] at he <;>
    simp at he <;>
    rcases he with rfl <;>
    simp [Inv]

theorem reachable_inv {s : DelayedAsyncTask E} (h : Reachable s) : Inv s := by
  induction h with
  | init => exact inv_construct
  | step e s s' hr he ih => exact inv_step ih he

theorem steps_inv {s s' : DelayedAsyncTask E} (hinv : Inv s) (h : Steps s s') :
    Inv s' := by
  induction h with
  | refl => exact hinv
  | tail hab hbc ih =>
      obtain ⟨e, he⟩ := hbc
      exact inv_step ih he

theorem terminal_no_step {s s' : DelayedAsyncTask E} {e : TaskEvent E}
    (hinv : Inv s) (ht : isTerminal s._status = true)
    (he : applyEvent e s = some s') : s' = s := by
  obtain ⟨st, tm, ur, slot, hc, hs, n⟩ := s
  cases st <;> simp only [isTerminal] at ht <;>
    (try simp at ht) <;>
    obtain ⟨h1, h2, h3, h4, h5, h6⟩ := hinv <;>
    subst_vars <;>
    rcases e with _ | v | outcome | _ <;>
    (try rcases outcome with ev | u) <;>
    simp only [applyEvent, handleTaskExecution, tryAbort] at he <;>
    simp at he <;>
    rcases he with rfl <;> rfl

theorem terminal_steps_eq {s s' : DelayedAsyncTask E}
    (hinv : Inv s) (ht : isTerminal s._status = true) (h : Steps s s') :
    s' = s := by
  induction h with
  | refl => rfl
  | tail hab hbc ih =>
      obtain ⟨e, he⟩ := hbc
      subst ih
      exact terminal_no_step hinv ht he

theorem rank_step {s s' : DelayedAsyncTask E} {e : TaskEvent E}
    (hinv : Inv s) (he : applyEvent e s = some s') :
    statusRank s._status ≤ statusRank s'._status := by
  obtain ⟨st, tm, ur, slot, hc, hs, n⟩ := s
  cases st <;>
    obtain ⟨h1, h2, h3, h4, h5, h6⟩ := hinv <;>
    subst_vars <;>
    rcases e with _ | v | outcome | _ <;>
    (try rcases outcome with ev | u) <;>
    simp only [applyEvent, handleTaskExecution, tryAbort] at he <;>
    simp at he <;>
    rcases he with rfl <;>
    simp [statusRank]

theorem rank_steps {s s' : DelayedAsyncTask E}
    (hinv : Inv s) (h : Steps s s') :
    statusRank s._status ≤ statusRank s'._status := by
  induction h with
  | refl => exact le_refl _
  | tail hab hbc ih =>
      obtain ⟨e, he⟩ := hbc
      exact le_trans ih (rank_step (steps_inv hinv hab) he)

/-- The state reached from construction by the timer firing on a callable
that returns a (still pending) promise: the handle is `EXECUTING`. -/
def sExecNat : DelayedAsyncTask Nat where
  _status := EXECUTING
  _timeout := false
  _uncaughtRejection := none
  _currentlyExecutingTaskPromise := true
  handlerCreated := true
  handlerSettled := false
  invocations := 1

theorem sExecNat_reachable : Reachable sExecNat :=
  Reachable.step TaskEvent.timerFireAsync (construct Nat) sExecNat
    Reachable.init (by decide)

/-- The state reached when the callable's promise rejects with the value
`undefined` (`none`): the handle is failed, yet `_uncaughtRejection` holds
`undefined`. -/
def sFailUndef : DelayedAsyncTask Nat where
  _status := FAILED_DUE_TO_UNCAUGHT_REJECTION
  _timeout := false
  _uncaughtRejection := none
  _currentlyExecutingTaskPromise := false
  handlerCreated := true
  handlerSettled := true
  invocations := 1

theorem sFailUndef_reachable : Reachable sFailUndef :=
  Reachable.step (TaskEvent.taskSettle (Except.error none)) sExecNat sFailUndef
    sExecNat_reachable (by decide)

/-- The state reached when the callable throws synchronously (value `7`):
the handler's `catch`/`finally` run inside the timer callback, and the
callback then stores the already fulfilled handler promise into the slot —
a terminal state whose promise slot is occupied. -/
def sSyncThrow : DelayedAsyncTask Nat where
  _status := FAILED_DUE_TO_UNCAUGHT_REJECTION
  _timeout := false
  _uncaughtRejection := some 7
  _currentlyExecutingTaskPromise := true
  handlerCreated := true
  handlerSettled := true
  invocations := 1

theorem sSyncThrow_reachable : Reachable sSyncThrow :=
  Reachable.step (TaskEvent.timerFireSyncThrow (some 7)) (construct Nat) sSyncThrow
    Reachable.init (by decide)

theorem inv_pending {s : DelayedAsyncTask E} (hinv : Inv s)
    (hp : s._status = PENDING) :
    s._timeout = true ∧ s._uncaughtRejection = none ∧
    s._currentlyExecutingTaskPromise = false ∧ s.handlerCreated = false ∧
    s.handlerSettled = false ∧ s.invocations = 0 := by
  obtain ⟨st, tm, ur, slot, hc, hs, n⟩ := s
  replace hp : st = PENDING := hp
  subst hp
  exact hinv

theorem inv_executing {s : DelayedAsyncTask E} (hinv : Inv s)
    (hx : s._status = EXECUTING) :
    s._timeout = false ∧ s._uncaughtRejection = none ∧
    s._currentlyExecutingTaskPromise = true ∧ s.handlerCreated = true ∧
    s.handlerSettled = false ∧ s.invocations = 1 := by
  obtain ⟨st, tm, ur, slot, hc, hs, n⟩ := s
  replace hx : st = EXECUTING := hx
  subst hx
  exact hinv

theorem inv_failed {s : DelayedAsyncTask E} (hinv : Inv s)
    (hf : s._status = FAILED_DUE_TO_UNCAUGHT_REJECTION) :
    s._timeout = false ∧ s.handlerCreated = true ∧
    s.handlerSettled = true ∧ s.invocations = 1 := by
  obtain ⟨st, tm, ur, slot, hc, hs, n⟩ := s
  replace hf : st = FAILED_DUE_TO_UNCAUGHT_REJECTION := hf
  subst hf
  obtain ⟨h1, -, -, h4, h5, h6⟩ := hinv
  exact ⟨h1, h4, h5, h6⟩

/-- C1: `tryAbort` returns `true` and moves the status from `PENDING` to
`ABORTED_BEFORE_EXECUTION` exactly when it is called while the status is
`PENDING`; in any other status it returns `false` and leaves the handle
completely unchanged; and a call that returns `true` guarantees the
callable is never invoked afterwards — the invocation count is `0` at the
abort and stays `0` along every sequence of further events. -/
theorem tryAbort_spec (s : DelayedAsyncTask E) (h : Reachable s) :
    ((tryAbort s).1 = true ↔ s._status = PENDING) ∧
    (s._status = PENDING →
      (tryAbort s).1 = true ∧
      (tryAbort s).2._status = ABORTED_BEFORE_EXECUTION) ∧
    (s._status ≠ PENDING → tryAbort s = (false, s)) ∧
    ((tryAbort s).1 = true →
      s.invocations = 0 ∧ ∀ s', Steps (tryAbort s).2 s' → s'.invocations = 0) := by
  have hinv := reachable_inv h
  by_cases hp : s._status = PENDING
  · have ht : tryAbort s =
        (true, { s with _timeout := false, _status := ABORTED_BEFORE_EXECUTION }) := by
      simp [tryAbort, hp]
    have hinv0 := inv_pending hinv hp
    have habInv : Inv (tryAbort s).2 := by
      have : applyEvent TaskEvent.tryAbortCall s = some (tryAbort s).2 := rfl
      exact inv_step hinv this
    refine ⟨?_, ?_, ?_, ?_⟩
    · simp [ht, hp]
    · intro _
      simp [ht]
    · intro hne
      exact absurd hp hne
    · intro _
      refine ⟨hinv0.2.2.2.2.2, ?_⟩
      intro s' hsteps
      have hterm : isTerminal ((tryAbort s).2)._status = true := by
        simp [ht, isTerminal]
      have heq := terminal_steps_eq habInv hterm hsteps
      rw [heq, ht]
      exact hinv0.2.2.2.2.2
  · have ht : tryAbort s = (false, s) := by
      simp [tryAbort, hp]
    refine ⟨?_, ?_, ?_, ?_⟩
    · simp [ht, hp]
    · intro hcon
      exact absurd hcon hp
    · intro _
      exact ht
    · intro hcon
      rw [ht] at hcon
      simp at hcon

/-- Witness for C1: aborting the freshly constructed (still `PENDING`)
handle succeeds. -/
theorem tryAbort_spec_witness :
    (tryAbort (construct Nat)).1 = true :=
  ((tryAbort_spec (construct Nat) Reachable.init).2.1 rfl).1

theorem resolves_immediately_of_not_executing {s : DelayedAsyncTask E}
    (hinv : Inv s) (hne : s._status ≠ EXECUTING) :
    resolvesImmediately s = true := by
  obtain ⟨st, tm, ur, slot, hc, hs, n⟩ := s
  cases st <;>
    obtain ⟨h1, h2, h3, h4, h5, h6⟩ := hinv <;>
    subst_vars <;>
    simp_all [resolvesImmediately, awaitCompletionIfCurrentlyExecuting] <;>
    cases slot <;> rfl

/-- C2: the awaitable returned by `awaitCompletionIfCurrentlyExecuting` is
already settled — awaiting it resolves at the next microtask checkpoint,
without waiting for any further event — whenever the status is `PENDING`,
`ABORTED_BEFORE_EXECUTION`, `COMPLETED_SUCCESSFULLY` or
`FAILED_DUE_TO_UNCAUGHT_REJECTION`; while the status is `EXECUTING` every
caller receives the one stored handler promise (the return value is a
function of the state, so all concurrent callers receive the same shared
promise), that promise is not yet settled, and a transition settles it
exactly when it is the settlement of the in-flight execution — so every
waiter resolves at that same settlement. -/
theorem awaitCompletion_resolution (s : DelayedAsyncTask E) (h : Reachable s) :
    (s._status ≠ EXECUTING → resolvesImmediately s = true) ∧
    (s._status = EXECUTING →
      awaitCompletionIfCurrentlyExecuting s = AwaitResult.storedHandler ∧
      s.handlerSettled = false ∧
      ∀ (e : TaskEvent E) (s' : DelayedAsyncTask E), applyEvent e s = some s' →
        (s'.handlerSettled = true ↔ TaskEvent.isSettle e = true)) := by
  have hinv := reachable_inv h
  refine ⟨resolves_immediately_of_not_executing hinv, ?_⟩
  intro hex
  obtain ⟨htm, hur, hslot, hhc, hhs, hn⟩ := inv_executing hinv hex
  refine ⟨?_, hhs, ?_⟩
  · simp [awaitCompletionIfCurrentlyExecuting, hslot]
  · intro e s' he
    rcases e with _ | v | outcome | _
    · simp [applyEvent, htm] at he
    · simp [applyEvent, htm] at he
    · simp only [applyEvent, hhc, hhs] at he
      simp at he
      rcases he with rfl
      rcases outcome with ev | u <;>
        simp [handleTaskExecution, TaskEvent.isSettle]
    · simp only [applyEvent, tryAbort, hex] at he
      simp at he
      rcases he with rfl
      simp [TaskEvent.isSettle, hhs]

/-- Witness for C2: on the freshly constructed (`PENDING`) handle the
awaitable resolves immediately. -/
theorem awaitCompletion_resolution_witness :
    resolvesImmediately (construct Nat) = true :=
  (awaitCompletion_resolution (construct Nat) Reachable.init).1 (by decide)

/-- C3: when the handle's callable is invoked and its settlement reaches
the handler while the handle is `EXECUTING`: a successful settlement makes
the status `COMPLETED_SUCCESSFULLY` and leaves the `uncaughtRejection`
getter at its no-value result (`none`/`undefined`); a settlement with an
error value `v` makes the status `FAILED_DUE_TO_UNCAUGHT_REJECTION` and
the `uncaughtRejection` getter returns exactly `v` — the identical value
that the task rejected with, including `v = none` (a rejection with
`undefined`). -/
theorem settlement_spec (s : DelayedAsyncTask E) (h : Reachable s)
    (hex : s._status = EXECUTING) :
    ((handleTaskExecution s (Except.ok ())).1._status = COMPLETED_SUCCESSFULLY ∧
     uncaughtRejection (handleTaskExecution s (Except.ok ())).1 = none) ∧
    ∀ v : Option E,
      (handleTaskExecution s (Except.error v)).1._status =
        FAILED_DUE_TO_UNCAUGHT_REJECTION ∧
      uncaughtRejection (handleTaskExecution s (Except.error v)).1 = v := by
  have hinv := reachable_inv h
  have hur := (inv_executing hinv hex).2.1
  refine ⟨⟨rfl, ?_⟩, ?_⟩
  · simpa [handleTaskExecution, uncaughtRejection] using hur
  · intro v
    exact ⟨rfl, rfl⟩

/-- Witness for C3: settling the executing handle with the error `some 3`
captures exactly `some 3`. -/
theorem settlement_spec_witness :
    uncaughtRejection (handleTaskExecution sExecNat (Except.error (some 3))).1 =
      some 3 :=
  ((settlement_spec sExecNat sExecNat_reachable rfl).2 (some 3)).2

/-- C4: errors produced by the callable are fully contained.  For every
state and every error value `v` (including `none`, a rejection with
`undefined`): the catch branch of `_handleTaskExecution` moves the handle
to `FAILED_DUE_TO_UNCAUGHT_REJECTION` and captures `v`; the handler's own
promise — the one `awaitCompletionIfCurrentlyExecuting` hands out — always
fulfils with `()` and never rejects, on both the error path and the
success path, so the error is never rethrown, never propagates through the
awaitable, and never reaches the unhandled-rejection channel (only a
rejected handler promise could reach it); and a synchronously throwing
callable is contained the same way, through the same catch branch, ending
in the failed state with the error captured. -/
theorem error_containment (s : DelayedAsyncTask E) (v : Option E) :
    (handleTaskExecution s (Except.error v)).1._status =
      FAILED_DUE_TO_UNCAUGHT_REJECTION ∧
    uncaughtRejection (handleTaskExecution s (Except.error v)).1 = v ∧
    (handleTaskExecution s (Except.error v)).2 = Except.ok () ∧
    (handleTaskExecution s (Except.ok ())).2 = Except.ok () ∧
    ∃ s', applyEvent (TaskEvent.timerFireSyncThrow v) (construct E) = some s' ∧
      s'._status = FAILED_DUE_TO_UNCAUGHT_REJECTION ∧
      uncaughtRejection s' = v :=
  ⟨rfl, rfl, rfl, rfl, ⟨_, rfl, rfl, rfl⟩⟩

/-- Counterexample for C5: the state reached by letting the callable's
promise reject with the value `undefined` is reachable, its status is
`FAILED_DUE_TO_UNCAUGHT_REJECTION`, and yet the captured failure value is
the empty/no-value result — refuting "non-empty if and only if the status
is FailedWithUncaughtError ... including for every possible error value". -/
theorem captured_failure_iff_cex :
    Reachable sFailUndef ∧
    sFailUndef._status = FAILED_DUE_TO_UNCAUGHT_REJECTION ∧
    (uncaughtRejection sFailUndef).isSome = false :=
  ⟨sFailUndef_reachable, rfl, rfl⟩

/-- C5 (amended): the captured failure value is non-empty only if the
status is `FAILED_DUE_TO_UNCAUGHT_REJECTION`, and a settlement with a
defined (non-`undefined`) error value always captures a non-empty value;
but a rejection with the value `undefined` reaches the failed status with
the captured value still empty, so the converse direction holds only for
defined error values. -/
theorem captured_failure_amended (s : DelayedAsyncTask E) (h : Reachable s) :
    ((uncaughtRejection s).isSome = true →
      s._status = FAILED_DUE_TO_UNCAUGHT_REJECTION) ∧
    ∀ v : E,
      (uncaughtRejection (handleTaskExecution s (Except.error (some v))).1).isSome =
        true := by
  have hinv := reachable_inv h
  refine ⟨?_, fun v => rfl⟩
  intro hsome
  obtain ⟨st, tm, ur, slot, hc, hs, n⟩ := s
  cases st <;>
    obtain ⟨h1, h2, h3, h4, h5, h6⟩ := hinv <;>
    subst_vars <;>
    simp_all [uncaughtRejection]

/-- Witness for C5 (amended): settling the fresh handle's state with the
defined error `some 9` yields a non-empty captured value. -/
theorem captured_failure_amended_witness :
    (uncaughtRejection
      (handleTaskExecution (construct Nat) (Except.error (some 9))).1).isSome =
      true :=
  (captured_failure_amended (construct Nat) Reachable.init).2 9

/-- C6: the callable is invoked at most once over the handle's lifetime,
and never before the timer fires: the constructed state has invocation
count `0` (in particular the constructor never invokes it synchronously),
the count is `0` as long as the status is `PENDING`, it never exceeds `1`,
a count of `1` implies the timer has already fired and been released, and
the count changes only at a timer-fire event taken while the timer is
still armed. -/
theorem callable_invoked_at_most_once (s : DelayedAsyncTask E)
    (h : Reachable s) :
    (construct E).invocations = 0 ∧
    s.invocations ≤ 1 ∧
    (s._status = PENDING → s.invocations = 0) ∧
    (s.invocations = 1 → s._timeout = false) ∧
    ∀ (e : TaskEvent E) (s' : DelayedAsyncTask E), applyEvent e s = some s' →
      s'.invocations = s.invocations ∨
      (TaskEvent.isFire e = true ∧ s._timeout = true ∧
        s'.invocations = s.invocations + 1) := by
  have hinv := reachable_inv h
  obtain ⟨st, tm, ur, slot, hc, hs, n⟩ := s
  refine ⟨rfl, ?_, ?_, ?_, ?_⟩
  · cases st <;>
      obtain ⟨h1, h2, h3, h4, h5, h6⟩ := hinv <;> simp_all
  · intro hp
    replace hp : st = PENDING := hp
    subst hp
    exact hinv.2.2.2.2.2
  · intro h1
    cases st <;>
      obtain ⟨g1, g2, g3, g4, g5, g6⟩ := hinv <;> simp_all
  · intro e s' he
    cases st <;>
      obtain ⟨g1, g2, g3, g4, g5, g6⟩ := hinv <;>
      subst_vars <;>
      rcases e with _ | v | outcome | _ <;>
      (try rcases outcome with ev | u) <;>
      simp only [applyEvent, handleTaskExecution, tryAbort] at he <;>
      simp at he <;>
      rcases he with rfl <;>
      simp [TaskEvent.isFire]

/-- Witness for C6: the freshly constructed handle has not invoked the
callable. -/
theorem callable_invoked_at_most_once_witness :
    (construct Nat).invocations = 0 :=
  (callable_invoked_at_most_once (construct Nat) Reachable.init).2.2.1 rfl

theorem statusRank_eq_zero {st : DelayedAsyncTaskStatus}
    (h : statusRank st = 0) : st = PENDING := by
  cases st <;> simp_all [statusRank]

theorem statusRank_eq_one {st : DelayedAsyncTaskStatus}
    (h : statusRank st = 1) : st = EXECUTING := by
  cases st <;> simp_all [statusRank]

/-- C7: once a reachable handle is in a terminal status
(`COMPLETED_SUCCESSFULLY`, `ABORTED_BEFORE_EXECUTION` or
`FAILED_DUE_TO_UNCAUGHT_REJECTION`) no sequence of events changes the
state at all; the status rank (`PENDING` < `EXECUTING` < terminal) never
decreases along any sequence of steps; and once the status has been left
(a later state has a different status) it is never revisited. -/
theorem status_monotone (s s' s'' : DelayedAsyncTask E) (h : Reachable s)
    (h1 : Steps s s') (h2 : Steps s' s'') :
    (isTerminal s._status = true → s' = s) ∧
    statusRank s._status ≤ statusRank s'._status ∧
    (s'._status ≠ s._status → s''._status ≠ s._status) := by
  have hinv := reachable_inv h
  have hinv' := steps_inv hinv h1
  refine ⟨fun ht => terminal_steps_eq hinv ht h1, rank_steps hinv h1, ?_⟩
  intro hne hcon
  have r1 := rank_steps hinv h1
  have r2 := rank_steps hinv' h2
  rw [hcon] at r2
  have hr : statusRank s'._status = statusRank s._status := le_antisymm r2 r1
  cases hterm : s._status
  case PENDING =>
    rw [hterm] at hr
    exact hne ((statusRank_eq_zero hr).trans hterm.symm)
  case EXECUTING =>
    rw [hterm] at hr
    exact hne ((statusRank_eq_one hr).trans hterm.symm)
  all_goals (
    have ht : isTerminal s._status = true := by rw [hterm] <;> rfl
    have heq := terminal_steps_eq hinv ht h1
    rw [heq] at hne
    exact hne rfl)

/-- Witness for C7: instantiated at the constructed handle with empty step
sequences. -/
theorem status_monotone_witness :
    statusRank (construct Nat)._status ≤ statusRank (construct Nat)._status :=
  (status_monotone (construct Nat) (construct Nat) (construct Nat)
    Reachable.init Relation.ReflTransGen.refl Relation.ReflTransGen.refl).2.1

/-- Counterexample for C8: when the callable throws synchronously, the
handler's `finally` clears the slot before the timer callback's assignment
stores the (already settled) handler promise into it — so a reachable
state exists whose status is the terminal
`FAILED_DUE_TO_UNCAUGHT_REJECTION` while `_currentlyExecutingTaskPromise`
is still present, refuting "present if and only if the status is
Executing ... cleared by the time any terminal status is observable". -/
theorem slot_iff_executing_cex :
    Reachable sSyncThrow ∧
    isTerminal sSyncThrow._status = true ∧
    sSyncThrow._status ≠ EXECUTING ∧
    sSyncThrow._currentlyExecutingTaskPromise = true :=
  ⟨sSyncThrow_reachable, rfl, by decide, rfl⟩

/-- C8 (amended): in every reachable state the stored promise is present
whenever the status is `EXECUTING`; conversely a present promise means the
status is `EXECUTING` or the handle is in `FAILED_DUE_TO_UNCAUGHT_REJECTION`
with the stored handler promise already settled (the synchronous-throw
case); and the slot is empty while `PENDING` and after an abort. -/
theorem slot_iff_executing_amended (s : DelayedAsyncTask E) (h : Reachable s) :
    (s._status = EXECUTING → s._currentlyExecutingTaskPromise = true) ∧
    (s._currentlyExecutingTaskPromise = true →
      s._status = EXECUTING ∨
      (s._status = FAILED_DUE_TO_UNCAUGHT_REJECTION ∧ s.handlerSettled = true)) ∧
    (s._status = PENDING → s._currentlyExecutingTaskPromise = false) ∧
    (s._status = ABORTED_BEFORE_EXECUTION →
      s._currentlyExecutingTaskPromise = false) := by
  have hinv := reachable_inv h
  obtain ⟨st, tm, ur, slot, hc, hs, n⟩ := s
  cases st <;>
    obtain ⟨g1, g2, g3, g4, g5, g6⟩ := hinv <;>
    subst_vars <;>
    simp_all

/-- Witness for C8 (amended): the constructed (`PENDING`) handle has an
empty slot. -/
theorem slot_iff_executing_amended_witness :
    (construct Nat)._currentlyExecutingTaskPromise = false :=
  (slot_iff_executing_amended (construct Nat) Reachable.init).2.2.1 rfl

/-- Counterexample for C9: the claim quantifies over every callable,
"including one whose returned promise never settles".  In the reachable
`EXECUTING` state the call returns the stored, not-yet-settled handler
promise, and every event other than the task's settlement leaves the state
(hence the unsettled promise) exactly as it is — so if the callable's
promise never settles, the awaitable never resolves, refuting "always
eventually resolves; it never blocks forever". -/
theorem await_eventual_cex :
    Reachable sExecNat ∧
    awaitCompletionIfCurrentlyExecuting sExecNat = AwaitResult.storedHandler ∧
    resolvesImmediately sExecNat = false ∧
    ∀ (e : TaskEvent Nat) (s' : DelayedAsyncTask Nat),
      TaskEvent.isSettle e = false → applyEvent e sExecNat = some s' →
      s' = sExecNat := by
  refine ⟨sExecNat_reachable, rfl, rfl, ?_⟩
  intro e s' hns he
  rcases e with _ | v | outcome | _
  · simp [applyEvent, sExecNat] at he
  · simp [applyEvent, sExecNat] at he
  · simp [TaskEvent.isSettle] at hns
  · simp [applyEvent, tryAbort, sExecNat] at he
    exact he.symm

/-- C9 (amended): every call to `awaitCompletionIfCurrentlyExecuting`
either resolves immediately, or — whenever it does not — the handle is
awaiting the task's settlement, and any settlement of the task's promise
(success or any error) settles the handler promise and restores immediate
resolution; it never throws and execution failures are absorbed rather
than propagated.  Eventual resolution therefore holds provided the
callable's promise eventually settles; a never-settling callable keeps the
awaitable pending forever. -/
theorem await_eventual_amended (s : DelayedAsyncTask E) (h : Reachable s)
    (hni : resolvesImmediately s = false) :
    ∀ outcome : Except (Option E) Unit, ∃ s',
      applyEvent (TaskEvent.taskSettle outcome) s = some s' ∧
      s'.handlerSettled = true ∧ resolvesImmediately s' = true := by
  have hinv := reachable_inv h
  have hslot : s._currentlyExecutingTaskPromise = true := by
    cases hb : s._currentlyExecutingTaskPromise
    · simp [resolvesImmediately, awaitCompletionIfCurrentlyExecuting, hb] at hni
    · rfl
  have hhs : s.handlerSettled = false := by
    simp [resolvesImmediately, awaitCompletionIfCurrentlyExecuting, hslot] at hni
    exact hni
  have hex : s._status = EXECUTING := by
    obtain ⟨st, tm, ur, slot, hc, hs, n⟩ := s
    cases st <;>
      obtain ⟨g1, g2, g3, g4, g5, g6⟩ := hinv <;>
      simp_all
  have hhc : s.handlerCreated = true := (inv_executing hinv hex).2.2.2.1
  intro outcome
  refine ⟨(handleTaskExecution s outcome).1, ?_, ?_, ?_⟩
  · simp [applyEvent, hhc, hhs]
  · cases outcome <;> rfl
  · cases outcome <;> rfl

/-- Witness for C9 (amended): from the executing state, a successful
settlement of the task settles the handler promise. -/
theorem await_eventual_amended_witness :
    ∃ s', applyEvent (TaskEvent.taskSettle (Except.ok ())) sExecNat = some s' ∧
      s'.handlerSettled = true ∧ resolvesImmediately s' = true :=
  await_eventual_amended sExecNat sExecNat_reachable (by decide) (Except.ok ())

/-- C10: if the callable settles with the error value `undefined`
(`Except.error none`), the handle still transitions to the failed state —
`isUncaughtRejectionOccurred` is `true` — yet the `uncaughtRejection`
getter returns `none`/`undefined`, exactly the result it returns on the
freshly constructed handle where no failure occurred at all: through that
getter the captured failure is indistinguishable from "no value". -/
theorem undefined_rejection_indistinguishable (s : DelayedAsyncTask E)
    (_h : Reachable s) (_hex : s._status = EXECUTING) :
    isUncaughtRejectionOccurred (handleTaskExecution s (Except.error none)).1 =
      true ∧
    uncaughtRejection (handleTaskExecution s (Except.error none)).1 = none ∧
    uncaughtRejection (handleTaskExecution s (Except.error none)).1 =
      uncaughtRejection (construct E) :=
  ⟨rfl, rfl, rfl⟩

/-- Witness for C10: instantiated at the reachable executing state. -/
theorem undefined_rejection_indistinguishable_witness :
    uncaughtRejection (handleTaskExecution sExecNat (Except.error none)).1 =
      none :=
  (undefined_rejection_indistinguishable sExecNat sExecNat_reachable rfl).2.1

end DelayedAsyncTask
